import Mathlib

/-!
Verification development for the query-language core of the `inference`
repository (`inference/core/workflows/core_steps/common/query_language/
entities/operations.py`).

The Python source under `src/` declares the data model: the kind vocabulary,
the closed operation catalog with each variant's declared input/output kinds,
operands, statements and statement groups (with their field defaults and the
`min_items=1` constraint).  Those declarations are embedded here directly from
the source.  The validator, operand resolver and evaluator are not part of the
provided source; they are modelled from the specification document
(`Modelled from the spec:` doc comments mark every such definition).
-/

namespace QL

/-- Kind vocabulary, from `inference.core.workflows.entities.types` as imported
by `operations.py` (BOOLEAN_KIND, ..., WILDCARD_KIND). -/
inductive Kind where
  | boolean
  | integer
  | float
  | floatZeroToOne
  | string
  | detection
  | objectDetectionPrediction
  | instanceSegmentationPrediction
  | keypointDetectionPrediction
  | listOfValues
  | dictionary
  | wildcard
  deriving DecidableEq, Repr

/-- Modelled from the spec: `compatible(producedKinds, acceptedKinds)` of the
Kind Registry (the compatibility-check implementation is not in the provided
source).  Holds iff the two kind sets intersect, with `Wildcard` present in
either set satisfying any intersection test unconditionally. -/
def compatible (produced accepted : List Kind) : Bool :=
  produced.any (· == Kind.wildcard) || accepted.any (· == Kind.wildcard) ||
    produced.any (fun k => accepted.any (· == k))

/-- `NumberCastingMode` from `enums.py` (imported by the source; values from
the spec: casting mode `int|float`). -/
inductive NumberCastingMode where
  | int
  | float
  deriving DecidableEq, Repr

/-- `SequenceAggregationFunction` from `enums.py` (imported by the source;
values from the spec: min/max/sum/avg). -/
inductive SequenceAggregationFunction where
  | min
  | max
  | sum
  | avg
  deriving DecidableEq, Repr

/-- `SequenceAggregationMode` from `enums.py` (imported by the source; the spec
describes `SequenceAggregate` as majority-vote style aggregation). -/
inductive SequenceAggregationMode where
  | mostCommon
  | leastCommon
  deriving DecidableEq, Repr

/-- `SequenceUnwrapMethod` from `enums.py` (imported by the source; the spec
names the default "first"). -/
inductive SequenceUnwrapMethod where
  | first
  | last
  deriving DecidableEq, Repr

/-- `StatementsGroupsOperator` from `enums.py` (imported by the source; values
`AND | OR`, default `OR`). -/
inductive StatementsGroupsOperator where
  | AND
  | OR
  deriving DecidableEq, Repr

/-- `DetectionsProperty` from `enums.py` (imported by the source; the spec's
scenarios extract `confidence` and `class_name`). -/
inductive DetectionsProperty where
  | confidence
  | className
  deriving DecidableEq, Repr

/-- A single detection, per the spec's glossary: box/class/confidence.
Numeric fields use `ℚ` in place of floating point. -/
structure Detection where
  x : Int
  y : Int
  width : Int
  height : Int
  className : String
  confidence : ℚ
  deriving DecidableEq, Repr

/-- Runtime values, per the spec's closed runtime-value variant
(Boolean/Integer/Float/String/List/Dictionary/Detection/DetectionCollection),
plus `none` for the absent value tested by `Exists`/`DoesNotExist`.
`ℚ` stands in for floating point. -/
inductive Value where
  | bool (b : Bool)
  | int (n : Int)
  | float (q : ℚ)
  | str (s : String)
  | list (vs : List Value)
  | dict (entries : List (Value × Value))
  | detection (d : Detection)
  | detections (ds : List Detection)
  | none
  deriving Repr

mutual

/-- Structural equality of runtime values (used by `LookupTable`, `==`, `in`). -/
def Value.beq : Value → Value → Bool
  | .bool a, .bool b => a = b
  | .int a, .int b => a = b
  | .float a, .float b => a = b
  | .str a, .str b => a = b
  | .list a, .list b => Value.beqList a b
  | .dict a, .dict b => Value.beqPairs a b
  | .detection a, .detection b => a = b
  | .detections a, .detections b => a = b
  | .none, .none => true
  | _, _ => false

def Value.beqList : List Value → List Value → Bool
  | [], [] => true
  | a :: as, b :: bs => Value.beq a b && Value.beqList as bs
  | _, _ => false

def Value.beqPairs : List (Value × Value) → List (Value × Value) → Bool
  | [], [] => true
  | (k₁, v₁) :: as, (k₂, v₂) :: bs =>
      Value.beq k₁ k₂ && Value.beq v₁ v₂ && Value.beqPairs as bs
  | _, _ => false

end

/-- Evaluation context: host-supplied mapping from operand names to runtime
values. -/
abbrev Ctx := List (String × Value)

/-- Name lookup in a context. -/
def ctxLookup (ctx : Ctx) (name : String) : Option Value :=
  match ctx with
  | [] => Option.none
  | (n, v) :: rest => if n = name then some v else ctxLookup rest name

/-- `DEFAULT_OPERAND_NAME = "_"` from the source. -/
def DEFAULT_OPERAND_NAME : String := "_"

/-- Binary comparators, one constructor per variant of the source's
`BinaryStatement.comparator` union (`Equals`, `NotEquals`, `NumerGreater`,
`NumerGreaterEqual`, `NumerLower`, `NumerLowerEqual`, `StringStartsWith`,
`StringEndsWith`, `StringContains`, `In`).  `inOp` stands for the source's
`In` (`in` is a Lean keyword). -/
inductive BinaryComparator where
  | equals
  | notEquals
  | numerGreater
  | numerGreaterEqual
  | numerLower
  | numerLowerEqual
  | stringStartsWith
  | stringEndsWith
  | stringContains
  | inOp
  deriving DecidableEq, Repr

/-- Unary comparators, one constructor per variant of the source's
`UnaryStatement.operator` union (`Exists`, `DoesNotExist`, `IsTrue`,
`IsFalse`, `IsEmpty`, `IsNotEmpty`).  `existsOp` stands for the source's
`Exists`. -/
inductive UnaryComparator where
  | existsOp
  | doesNotExist
  | isTrue
  | isFalse
  | isEmpty
  | isNotEmpty
  deriving DecidableEq, Repr

mutual

/-- The closed operation catalog: one constructor per variant of the source's
`AllOperationsType` union, with the variant's configuration fields.  Python
dicts (`lookup_table`) become association lists; numeric parameters use
`Int`/`ℚ`.  `stringSubSequence`'s two fields are the source's `start` and
`end` (renamed `stop`: `end` is a Lean keyword). -/
inductive Operation where
  | stringToLowerCase
  | stringToUpperCase
  | lookupTable (lookup_table : List (Value × Value))
  | toNumber (cast_to : NumberCastingMode)
  | numberRound (decimal_digits : Int)
  | sequenceMap (lookup_table : List (Value × Value))
  | sequenceApply (operations : List Operation)
  | numericSequenceAggregate (function : SequenceAggregationFunction)
  | toString
  | toBoolean
  | stringSubSequence (start stop : Int)
  | detectionsPropertyExtract (property_name : DetectionsProperty)
  | sequenceAggregate (mode : SequenceAggregationMode)
  | extractDetectionProperty (property_name : DetectionsProperty)
      (unwrap_method : SequenceUnwrapMethod)
  | detectionsFilter (filter_operation : StatementGroup)
  | detectionsOffset (offset_x offset_y : Int)
  | detectionsShift (shift_x shift_y : Int)
  | randomNumber (min_value max_value : ℚ)
  | stringMatches (regex : String)
  | sequenceLength

/-- Operands, from the source's `StaticOperand` (an embedded literal plus an
operations chain, default empty) and `DynamicOperand` (a context name, default
`"_"`, plus an operations chain, default empty). -/
inductive Operand where
  | static (value : Value) (operations : List Operation)
  | dynamic (operations : List Operation) (operand_name : String)

/-- One element of a `StatementGroup.statements` list, from the source's
discriminated union `BinaryStatement | UnaryStatement | StatementGroup`. -/
inductive GroupElement where
  | binary (left_operand : Operand) (comparator : BinaryComparator)
      (right_operand : Operand) (negate : Bool)
  | unary (operand : Operand) (operator : UnaryComparator) (negate : Bool)
  | group (g : StatementGroup)

/-- `StatementGroup` from the source: an ordered list of statements and/or
nested groups plus a group operator (default `OR`).  The source's
`min_items=1` constraint is a decode-time check, modelled separately by
`decodeValid`. -/
inductive StatementGroup where
  | mk (statements : List GroupElement) (operator : StatementsGroupsOperator)

end

/-- The `statements` field of a group. -/
def StatementGroup.statements : StatementGroup → List GroupElement
  | .mk s _ => s

/-- The `operator` field of a group. -/
def StatementGroup.groupOperator : StatementGroup → StatementsGroupsOperator
  | .mk _ o => o

/-- Declared accepted input kinds of each operation variant, transcribed from
the `input_kind` entries of the source's `model_config` blocks. -/
def Operation.inputKinds : Operation → List Kind
  | .stringToLowerCase => [.string]
  | .stringToUpperCase => [.string]
  | .lookupTable _ => [.wildcard]
  | .toNumber _ => [.string, .boolean, .integer, .float, .floatZeroToOne]
  | .numberRound _ => [.integer, .float, .floatZeroToOne]
  | .sequenceMap _ => [.listOfValues]
  | .sequenceApply _ => [.listOfValues]
  | .numericSequenceAggregate _ => [.listOfValues]
  | .toString => [.wildcard]
  | .toBoolean => [.float, .floatZeroToOne, .integer]
  | .stringSubSequence _ _ => [.string]
  | .detectionsPropertyExtract _ =>
      [.objectDetectionPrediction, .instanceSegmentationPrediction,
       .keypointDetectionPrediction]
  | .sequenceAggregate _ => [.listOfValues]
  | .extractDetectionProperty _ _ => [.detection]
  | .detectionsFilter _ =>
      [.objectDetectionPrediction, .instanceSegmentationPrediction,
       .keypointDetectionPrediction]
  | .detectionsOffset _ _ =>
      [.objectDetectionPrediction, .instanceSegmentationPrediction,
       .keypointDetectionPrediction]
  | .detectionsShift _ _ =>
      [.objectDetectionPrediction, .instanceSegmentationPrediction,
       .keypointDetectionPrediction]
  | .randomNumber _ _ =>
      [.objectDetectionPrediction, .instanceSegmentationPrediction,
       .keypointDetectionPrediction, .wildcard]
  | .stringMatches _ => [.string]
  | .sequenceLength =>
      [.objectDetectionPrediction, .instanceSegmentationPrediction,
       .keypointDetectionPrediction, .listOfValues, .dictionary]

/-- Declared produced output kinds of each operation variant, transcribed from
the `output_kind` entries of the source's `model_config` blocks. -/
def Operation.outputKinds : Operation → List Kind
  | .stringToLowerCase => [.string]
  | .stringToUpperCase => [.string]
  | .lookupTable _ => [.wildcard]
  | .toNumber _ => [.integer, .float, .floatZeroToOne]
  | .numberRound _ => [.integer, .float, .floatZeroToOne]
  | .sequenceMap _ => [.listOfValues]
  | .sequenceApply _ => [.listOfValues]
  | .numericSequenceAggregate _ => [.integer, .float, .floatZeroToOne]
  | .toString => [.string]
  | .toBoolean => [.boolean]
  | .stringSubSequence _ _ => [.string]
  | .detectionsPropertyExtract _ => [.listOfValues]
  | .sequenceAggregate _ => [.wildcard]
  | .extractDetectionProperty _ _ => [.wildcard]
  | .detectionsFilter _ =>
      [.objectDetectionPrediction, .instanceSegmentationPrediction,
       .keypointDetectionPrediction]
  | .detectionsOffset _ _ =>
      [.objectDetectionPrediction, .instanceSegmentationPrediction,
       .keypointDetectionPrediction]
  | .detectionsShift _ _ =>
      [.objectDetectionPrediction, .instanceSegmentationPrediction,
       .keypointDetectionPrediction]
  | .randomNumber _ _ => [.float, .floatZeroToOne]
  | .stringMatches _ => [.boolean]
  | .sequenceLength => [.integer]

/-- The error taxonomy of the spec's §7 (the exception classes themselves are
not in the provided source). -/
inductive QLError where
  | schemaError
  | kindMismatchError (stageIdx : Option Nat)
  | operandResolutionError (operand_name : String)
  | operationExecutionError
  | invalidRangeError
  deriving DecidableEq, Repr

/-! ### Chain validation

Modelled from the spec (§4.4): the validator implementation is not in the
provided source; the per-variant kind tables it consults are transcribed from
the source above. -/

/-- Modelled from the spec: the kind-compatibility walk of `validate`.  At each
adjacent pair check `compatible(stage[i].output_kinds, stage[i+1].input_kinds)`;
any incompatibility aborts with `KindMismatchError` naming the offending stage
index (the first stage of the offending pair).  `i` is the index of the head of
the remaining list within the whole chain. -/
def kindWalk (i : Nat) : List Operation → Except QLError Unit
  | [] => .ok ()
  | [_] => .ok ()
  | op₁ :: op₂ :: rest =>
      if compatible op₁.outputKinds op₂.inputKinds then
        kindWalk (i + 1) (op₂ :: rest)
      else
        .error (.kindMismatchError (some i))

mutual

/-- Modelled from the spec: per-stage static checks of `validate`.
`RandomNumber` with `min_value > max_value` is statically detectable and fails
with `InvalidRangeError` at validate time; compound operations recursively
validate their nested chain/group. -/
def validateOperation : Operation → Except QLError Unit
  | .randomNumber lo hi =>
      if hi < lo then .error .invalidRangeError else .ok ()
  | .sequenceApply ops => validateChain ops
  | .detectionsFilter g => validateGroup g
  | _ => .ok ()

/-- Modelled from the spec: static checks of every stage, in order. -/
def validateStages : List Operation → Except QLError Unit
  | [] => .ok ()
  | op :: rest => do
      validateOperation op
      validateStages rest

/-- Modelled from the spec: `validate` for an operations chain — the
kind-compatibility walk over every adjacency, then the per-stage static
checks (so a kind-incompatible chain always fails with `KindMismatchError`). -/
def validateChain (ops : List Operation) : Except QLError Unit := do
  kindWalk 0 ops
  validateStages ops

/-- Modelled from the spec: recursive validation of a statement group —
validate the operations chain of every operand of every statement, at every
nesting level. -/
def validateGroup : StatementGroup → Except QLError Unit
  | .mk stmts _ => validateElems stmts

/-- Modelled from the spec: validation of the elements of a group. -/
def validateElems : List GroupElement → Except QLError Unit
  | [] => .ok ()
  | e :: rest => do
      validateElem e
      validateElems rest

/-- Modelled from the spec: validation of one group element. -/
def validateElem : GroupElement → Except QLError Unit
  | .binary l _ r _ => do
      validateOperand l
      validateOperand r
  | .unary o _ _ => validateOperand o
  | .group g => validateGroup g

/-- Modelled from the spec: validation of an operand's own operations chain. -/
def validateOperand : Operand → Except QLError Unit
  | .static _ ops => validateChain ops
  | .dynamic ops _ => validateChain ops

end

/-! ### Pure helpers of the evaluator

All modelled from the spec (§4.2, §4.5): the evaluator implementation is not
in the provided source. -/

/-- Modelled from the spec: numeric view of a value (`Integer`/`Float`
kinds). -/
def asNumber : Value → Option ℚ
  | .int n => some (n : ℚ)
  | .float q => some q
  | _ => Option.none

/-- Modelled from the spec: whether a value is present (not the absent value),
as tested by `Exists` / `DoesNotExist`. -/
def Value.isGiven : Value → Bool
  | .none => false
  | _ => true

/-- Modelled from the spec: lookup-table search (`LookupTable`/`SequenceMap`);
`Option.none` on a miss. -/
def tableLookup : List (Value × Value) → Value → Option Value
  | [], _ => Option.none
  | (k, w) :: rest, v => if Value.beq k v then some w else tableLookup rest v

/-- Whether `needle` occurs at the head of `hay`. -/
def subListAt : List Char → List Char → Bool
  | [], _ => true
  | _ :: _, [] => false
  | c :: cs, h :: hs => c = h && subListAt cs hs

/-- Whether `hay` contains `needle` as a contiguous run (string containment,
for the `(String) contains` comparator). -/
def containsSub (needle : List Char) : List Char → Bool
  | [] => needle.isEmpty
  | c :: rest => subListAt needle (c :: rest) || containsSub needle rest

/-- Modelled from the spec: Python-style normalisation of one slice index for a
sequence of length `len` — negative indices count from the end, out-of-range
indices clamp. -/
def pySliceIndex (len : Nat) (i : Int) : Nat :=
  if i < 0 then (i + len).toNat else min i.toNat len

/-- Modelled from the spec: Python-style slice `l[start:stop]`
(`StringSubSequence` semantics). -/
def pySlice (l : List Char) (start stop : Int) : List Char :=
  let a := pySliceIndex l.length start
  let b := pySliceIndex l.length stop
  (l.drop a).take (b - a)

/-- Modelled from the spec: Python `int()` truncation toward zero of a
rational. -/
def pyTrunc (q : ℚ) : Int := if 0 ≤ q then ⌊q⌋ else ⌈q⌉

/-- Modelled from the spec: round-half-to-even of a rational to an integer
(`NumberRound` uses Python `round`). -/
def roundHalfEven (q : ℚ) : Int :=
  let f := ⌊q⌋
  if q - f < 1 / 2 then f
  else if 1 / 2 < q - f then f + 1
  else if f % 2 = 0 then f else f + 1

/-- Modelled from the spec: `NumberRound` on a rational — round half to even at
`d` decimal digits. -/
def numRoundQ (q : ℚ) (d : Int) : ℚ :=
  (roundHalfEven (q * (10 : ℚ) ^ d) : ℚ) * (10 : ℚ) ^ (-d)

/-- Modelled from the spec: the value of one detection property
(`DetectionsPropertyExtract` / `ExtractDetectionProperty`). -/
def detectionProperty (p : DetectionsProperty) (d : Detection) : Value :=
  match p with
  | .confidence => .float d.confidence
  | .className => .str d.className

/-- Modelled from the spec: min/max/sum/avg over a non-empty numeric sequence
(head `q`, tail `qs`). -/
def numericAggregate (f : SequenceAggregationFunction) (q : ℚ) (qs : List ℚ) : ℚ :=
  match f with
  | .min => qs.foldl min q
  | .max => qs.foldl max q
  | .sum => qs.foldl (· + ·) q
  | .avg => (qs.foldl (· + ·) q) / ((qs.length : ℚ) + 1)

/-- Numeric view of a whole sequence; `Option.none` if any element is
non-numeric. -/
def valuesAsNumbers : List Value → Option (List ℚ)
  | [] => some []
  | v :: vs =>
      match asNumber v, valuesAsNumbers vs with
      | some q, some qs => some (q :: qs)
      | _, _ => Option.none

/-- Number of occurrences of `v` in `vs` (under structural value equality). -/
def countOcc (vs : List Value) (v : Value) : Nat :=
  (vs.filter (fun w => Value.beq v w)).length

/-- Fold picking the element whose occurrence count is strictly better than the
best so far (first element wins ties). -/
def argBest (all : List Value) (better : Nat → Nat → Bool) :
    List Value → Value → Value
  | [], best => best
  | v :: vs, best =>
      argBest all better vs
        (if better (countOcc all v) (countOcc all best) then v else best)

/-- Modelled from the spec: majority-vote style aggregation of
`SequenceAggregate` — most/least common element, first wins ties. -/
def sequenceAggregateValue (mode : SequenceAggregationMode) :
    List Value → Option Value
  | [] => Option.none
  | v :: vs =>
      match mode with
      | .mostCommon => some (argBest (v :: vs) (fun a b => b < a) vs v)
      | .leastCommon => some (argBest (v :: vs) (fun a b => a < b) vs v)

/-- Rendering of a rational for `ToString` (integers render without a
denominator; floating-point text formats are outside the model). -/
def ratStr (q : ℚ) : String :=
  if q.den = 1 then toString q.num
  else toString q.num ++ "/" ++ toString q.den

mutual

/-- Modelled from the spec: total stringification of `ToString`
(Python `str`: booleans render `True`/`False`, strings are unchanged). -/
def pyStr : Value → String
  | .bool b => if b then "True" else "False"
  | .int n => toString n
  | .float q => ratStr q
  | .str s => s
  | .list vs => "[" ++ pyStrList vs ++ "]"
  | .dict entries => "\x7b" ++ pyStrPairs entries ++ "\x7d"
  | .detection d => "Detection(" ++ d.className ++ ", " ++ ratStr d.confidence ++ ")"
  | .detections ds => "Detections(" ++ toString ds.length ++ ")"
  | .none => "None"

def pyStrList : List Value → String
  | [] => ""
  | [v] => pyStr v
  | v :: vs => pyStr v ++ ", " ++ pyStrList vs

def pyStrPairs : List (Value × Value) → String
  | [] => ""
  | [(k, v)] => pyStr k ++ ": " ++ pyStr v
  | (k, v) :: rest => pyStr k ++ ": " ++ pyStr v ++ ", " ++ pyStrPairs rest

end

/-- Modelled from the spec: `ToNumber` casting (casting mode `int|float`;
fails with `OperationExecutionError` if the source cannot be interpreted;
fractional numeric strings are outside the model). -/
def castToNumber (mode : NumberCastingMode) : Value → Except QLError Value
  | .int n =>
      match mode with
      | .int => .ok (.int n)
      | .float => .ok (.float (n : ℚ))
  | .float q =>
      match mode with
      | .int => .ok (.int (pyTrunc q))
      | .float => .ok (.float q)
  | .bool b =>
      match mode with
      | .int => .ok (.int (if b then 1 else 0))
      | .float => .ok (.float (if b then 1 else 0))
  | .str s =>
      match s.toInt? with
      | some n =>
          match mode with
          | .int => .ok (.int n)
          | .float => .ok (.float (n : ℚ))
      | Option.none => .error .operationExecutionError
  | _ => .error .operationExecutionError

/-- Modelled from the spec: binary comparator application (§4.5) — a pure
function to Boolean, failing with `KindMismatchError` on an incompatible
value kind. -/
def applyBinaryComparator (cmp : BinaryComparator) (l r : Value) :
    Except QLError Bool :=
  match cmp with
  | .equals => .ok (Value.beq l r)
  | .notEquals => .ok (!Value.beq l r)
  | .numerGreater =>
      match asNumber l, asNumber r with
      | some a, some b => .ok (decide (b < a))
      | _, _ => .error (.kindMismatchError Option.none)
  | .numerGreaterEqual =>
      match asNumber l, asNumber r with
      | some a, some b => .ok (decide (b ≤ a))
      | _, _ => .error (.kindMismatchError Option.none)
  | .numerLower =>
      match asNumber l, asNumber r with
      | some a, some b => .ok (decide (a < b))
      | _, _ => .error (.kindMismatchError Option.none)
  | .numerLowerEqual =>
      match asNumber l, asNumber r with
      | some a, some b => .ok (decide (a ≤ b))
      | _, _ => .error (.kindMismatchError Option.none)
  | .stringStartsWith =>
      match l, r with
      | .str a, .str b => .ok (a.startsWith b)
      | _, _ => .error (.kindMismatchError Option.none)
  | .stringEndsWith =>
      match l, r with
      | .str a, .str b => .ok (a.endsWith b)
      | _, _ => .error (.kindMismatchError Option.none)
  | .stringContains =>
      match l, r with
      | .str a, .str b => .ok (containsSub b.toList a.toList)
      | _, _ => .error (.kindMismatchError Option.none)
  | .inOp =>
      match r with
      | .list vs => .ok (vs.any (fun w => Value.beq l w))
      | .dict entries => .ok (entries.any (fun kv => Value.beq l kv.1))
      | _ => .error (.kindMismatchError Option.none)

/-- Modelled from the spec: unary comparator application (§4.5). -/
def applyUnaryComparator (cmp : UnaryComparator) (v : Value) :
    Except QLError Bool :=
  match cmp with
  | .existsOp => .ok v.isGiven
  | .doesNotExist => .ok (!v.isGiven)
  | .isTrue =>
      match v with
      | .bool b => .ok b
      | _ => .error (.kindMismatchError Option.none)
  | .isFalse =>
      match v with
      | .bool b => .ok (!b)
      | _ => .error (.kindMismatchError Option.none)
  | .isEmpty =>
      match v with
      | .list vs => .ok vs.isEmpty
      | .dict entries => .ok entries.isEmpty
      | .detections ds => .ok ds.isEmpty
      | _ => .error (.kindMismatchError Option.none)
  | .isNotEmpty =>
      match v with
      | .list vs => .ok (!vs.isEmpty)
      | .dict entries => .ok (!entries.isEmpty)
      | .detections ds => .ok (!ds.isEmpty)
      | _ => .error (.kindMismatchError Option.none)

/-! ### The evaluator

Modelled from the spec (§4.2–§4.6): the evaluator implementation is not in
the provided source.  Impure ingredients are supplied by the host through
`EvalEnv`: `draw k` is the `k`-th sample of the per-evaluation randomness
source (a rational in `[0,1]` for a well-behaved host), consumed by
`RandomNumber` in order (every evaluation function threads the next sample
index `n`); `regexTest regex s` is the regex oracle of `StringMatches`
(`Option.none` marks an invalid pattern). -/

structure EvalEnv where
  draw : Nat → ℚ
  regexTest : String → String → Option Bool

/-- Modelled from the spec: evaluation of every non-compound operation on a
runtime value (§4.2).  Returns the transformed value and the next random
sample index; a runtime fault is an `OperationExecutionError` (an
`InvalidRangeError` for a mis-configured `RandomNumber`).  The two compound
variants are handled by `evalOp`; reaching them here is a fault. -/
def applySimpleOp (env : EvalEnv) (op : Operation) (v : Value) (n : Nat) :
    Except QLError (Value × Nat) :=
  match op, v with
  | .stringToLowerCase, .str s => .ok (.str s.toLower, n)
  | .stringToUpperCase, .str s => .ok (.str s.toUpper, n)
  | .lookupTable t, v => .ok ((tableLookup t v).getD v, n)
  | .toNumber mode, v => do
      let w ← castToNumber mode v
      .ok (w, n)
  | .numberRound d, .int m => .ok (.int ⌊numRoundQ (m : ℚ) d⌋, n)
  | .numberRound d, .float q => .ok (.float (numRoundQ q d), n)
  | .sequenceMap t, .list vs =>
      .ok (.list (vs.map (fun w => (tableLookup t w).getD w)), n)
  | .numericSequenceAggregate f, .list vs =>
      match valuesAsNumbers vs with
      | some (q :: qs) => .ok (.float (numericAggregate f q qs), n)
      | _ => .error .operationExecutionError
  | .toString, v => .ok (.str (pyStr v), n)
  | .toBoolean, v =>
      match asNumber v with
      | some q => .ok (.bool (decide (q ≠ 0)), n)
      | Option.none => .error .operationExecutionError
  | .stringSubSequence a b, .str s =>
      .ok (.str (String.mk (pySlice s.toList a b)), n)
  | .detectionsPropertyExtract p, .detections ds =>
      .ok (.list (ds.map (detectionProperty p)), n)
  | .sequenceAggregate mode, .list vs =>
      match sequenceAggregateValue mode vs with
      | some w => .ok (w, n)
      | Option.none => .error .operationExecutionError
  | .extractDetectionProperty p _, .detection d =>
      .ok (detectionProperty p d, n)
  | .detectionsOffset ox oy, .detections ds =>
      .ok (.detections (ds.map (fun d =>
        { d with width := d.width + ox, height := d.height + oy })), n)
  | .detectionsShift sx sy, .detections ds =>
      .ok (.detections (ds.map (fun d =>
        { d with x := d.x + sx, y := d.y + sy })), n)
  | .randomNumber lo hi, _ =>
      if hi < lo then .error .invalidRangeError
      else .ok (.float (lo + env.draw n * (hi - lo)), n + 1)
  | .stringMatches re, .str s =>
      match env.regexTest re s with
      | some b => .ok (.bool b, n)
      | Option.none => .error .operationExecutionError
  | .sequenceLength, .list vs => .ok (.int vs.length, n)
  | .sequenceLength, .dict entries => .ok (.int entries.length, n)
  | .sequenceLength, .detections ds => .ok (.int ds.length, n)
  | _, _ => .error .operationExecutionError

/-- The neutral starting value of a group operator's fold (`AND` starts
`true`, `OR` starts `false`); decoded groups are never empty, so it is never
the final answer of a decoded group. -/
def groupIdentity : StatementsGroupsOperator → Bool
  | .AND => true
  | .OR => false

/-- Whether a child's result settles the group immediately: `AND`
short-circuits on the first `false` child, `OR` on the first `true` child
(§4.6). -/
def shortCircuits (op : StatementsGroupsOperator) (b : Bool) : Bool :=
  match op with
  | .AND => !b
  | .OR => b

mutual

/-- Modelled from the spec: evaluation of one chain stage (§4.4).  Compound
variants recurse (`SequenceApply` element-wise, `DetectionsFilter` through its
nested group with `"_"` rebound per detection); every other variant is
`applySimpleOp`. -/
def evalOp (env : EvalEnv) (ctx : Ctx) :
    Operation → Value → Nat → Except QLError (Value × Nat)
  | .sequenceApply ops, .list vs, n => do
      let (vs', n') ← evalEach env ctx ops vs n
      .ok (.list vs', n')
  | .sequenceApply _, _, _ => .error .operationExecutionError
  | .detectionsFilter g, .detections ds, n => do
      let (ds', n') ← evalFilter env ctx g ds n
      .ok (.detections ds', n')
  | .detectionsFilter _, _, _ => .error .operationExecutionError
  | op, v, n => applySimpleOp env op v n

/-- Modelled from the spec: evaluation of an operations chain — each stage's
transform applied to the running value in order; a stage's failure aborts the
remaining stages (§4.4). -/
def evalOps (env : EvalEnv) (ctx : Ctx) :
    List Operation → Value → Nat → Except QLError (Value × Nat)
  | [], v, n => .ok (v, n)
  | op :: rest, v, n => do
      let (v', n') ← evalOp env ctx op v n
      evalOps env ctx rest v' n'

/-- Modelled from the spec: `SequenceApply`'s nested chain applied to every
element of a list independently, preserving order and length. -/
def evalEach (env : EvalEnv) (ctx : Ctx) :
    List Operation → List Value → Nat → Except QLError (List Value × Nat)
  | _, [], n => .ok ([], n)
  | ops, v :: vs, n => do
      let (v', n') ← evalOps env ctx ops v n
      let (vs', n'') ← evalEach env ctx ops vs n'
      .ok (v' :: vs', n'')

/-- Modelled from the spec: `DetectionsFilter`'s nested group applied to each
detection, with `"_"` bound to the current detection in the nested context;
detections for which the group evaluates `true` are kept, in order. -/
def evalFilter (env : EvalEnv) (ctx : Ctx) :
    StatementGroup → List Detection → Nat → Except QLError (List Detection × Nat)
  | _, [], n => .ok ([], n)
  | g, d :: ds, n => do
      let (b, n') ← evalGroup env ((DEFAULT_OPERAND_NAME, .detection d) :: ctx) g n
      let (ds', n'') ← evalFilter env ctx g ds n'
      .ok (if b then d :: ds' else ds', n'')

/-- Modelled from the spec: evaluation of a statement group (§4.6). -/
def evalGroup (env : EvalEnv) (ctx : Ctx) :
    StatementGroup → Nat → Except QLError (Bool × Nat)
  | .mk stmts op, n => evalElems env ctx stmts op n

/-- Modelled from the spec: children of a group evaluated strictly in declared
order; `AND` short-circuits on the first `false` child, `OR` on the first
`true` child (§4.6). -/
def evalElems (env : EvalEnv) (ctx : Ctx) :
    List GroupElement → StatementsGroupsOperator → Nat →
      Except QLError (Bool × Nat)
  | [], op, n => .ok (groupIdentity op, n)
  | e :: rest, op, n => do
      let (b, n') ← evalElem env ctx e n
      if shortCircuits op b then .ok (b, n')
      else evalElems env ctx rest op n'

/-- Modelled from the spec: evaluation of one group child — a binary statement
(resolve left, then right, apply the comparator, apply `negate`), a unary
statement (resolve, apply, `negate`), or a nested group (§4.6). -/
def evalElem (env : EvalEnv) (ctx : Ctx) :
    GroupElement → Nat → Except QLError (Bool × Nat)
  | .binary l cmp r neg, n => do
      let (lv, n₁) ← resolve env ctx l n
      let (rv, n₂) ← resolve env ctx r n₁
      let b ← applyBinaryComparator cmp lv rv
      .ok (if neg then !b else b, n₂)
  | .unary o cmp neg, n => do
      let (v, n₁) ← resolve env ctx o n
      let b ← applyUnaryComparator cmp v
      .ok (if neg then !b else b, n₁)
  | .group g, n => evalGroup env ctx g n

/-- Modelled from the spec: operand resolution (§4.3) — Static starts from the
embedded literal; Dynamic looks `operand_name` up in the context, failing with
`OperandResolutionError` when absent; then the operand's own operations chain
is applied to the obtained value. -/
def resolve (env : EvalEnv) (ctx : Ctx) :
    Operand → Nat → Except QLError (Value × Nat)
  | .static v ops, n => evalOps env ctx ops v n
  | .dynamic ops name, n =>
      match ctxLookup ctx name with
      | Option.none => .error (.operandResolutionError name)
      | some v => evalOps env ctx ops v n

end

/-! ### Decode-time checks and auxiliary notions -/

/-- Decode-time field defaults of `RandomNumber`, from the source
(`min_value: float = Field(default=0.0)`, `max_value: float =
Field(default=1.0)`): a document omitting a field takes its default. -/
def mkRandomNumber (min_value max_value : Option ℚ) : Operation :=
  .randomNumber (min_value.getD 0) (max_value.getD 1)

/-- Decode-time field defaults of `StringSubSequence`, from the source
(`start: int = Field(default=0)`, `end: int = Field(default=-1)`). -/
def mkStringSubSequence (start stop : Option Int) : Operation :=
  .stringSubSequence (start.getD 0) (stop.getD (-1))

/-- Whether the adjacent pair of stages `i, i+1` of a chain is
kind-incompatible (the first stage's declared output kinds fail the
compatibility test against the next stage's declared input kinds). -/
def incompatAt (ops : List Operation) (i : Nat) : Bool :=
  match ops[i]?, ops[i + 1]? with
  | some a, some b => !compatible a.outputKinds b.inputKinds
  | _, _ => false

/-- A copy of a binary/unary statement with its `negate` flag replaced
(nested groups carry no negate flag and are returned unchanged). -/
def GroupElement.setNegate (e : GroupElement) (b : Bool) : GroupElement :=
  match e with
  | .binary l c r _ => .binary l c r b
  | .unary o c _ => .unary o c b
  | .group g => .group g

mutual

/-- Decode-time validation of a statement group, from the source's
`min_items=1` on `StatementGroup.statements` (the generic tagged-document
decode plumbing is external; the recursive application of each nested model's
constraints is how it validates nested documents): every group in the
document, at every nesting level, must carry a non-empty statements list. -/
def decodeValidGroup : StatementGroup → Bool
  | .mk stmts _ => !stmts.isEmpty && decodeValidElems stmts

def decodeValidElems : List GroupElement → Bool
  | [] => true
  | e :: rest => decodeValidElem e && decodeValidElems rest

def decodeValidElem : GroupElement → Bool
  | .binary l _ r _ => decodeValidOperand l && decodeValidOperand r
  | .unary o _ _ => decodeValidOperand o
  | .group g => decodeValidGroup g

def decodeValidOperand : Operand → Bool
  | .static _ ops => decodeValidOps ops
  | .dynamic ops _ => decodeValidOps ops

def decodeValidOps : List Operation → Bool
  | [] => true
  | op :: rest => decodeValidOp op && decodeValidOps rest

def decodeValidOp : Operation → Bool
  | .sequenceApply ops => decodeValidOps ops
  | .detectionsFilter g => decodeValidGroup g
  | _ => true

end

mutual

/-- All statement groups nested anywhere inside a group (the group itself,
groups among its statements, and groups inside `DetectionsFilter` operations
of its operands' chains, recursively). -/
def subGroupsGroup : StatementGroup → List StatementGroup
  | .mk stmts op => .mk stmts op :: subGroupsElems stmts

def subGroupsElems : List GroupElement → List StatementGroup
  | [] => []
  | e :: rest => subGroupsElem e ++ subGroupsElems rest

def subGroupsElem : GroupElement → List StatementGroup
  | .binary l _ r _ => subGroupsOperand l ++ subGroupsOperand r
  | .unary o _ _ => subGroupsOperand o
  | .group g => subGroupsGroup g

def subGroupsOperand : Operand → List StatementGroup
  | .static _ ops => subGroupsOps ops
  | .dynamic ops _ => subGroupsOps ops

def subGroupsOps : List Operation → List StatementGroup
  | [] => []
  | op :: rest => subGroupsOp op ++ subGroupsOps rest

def subGroupsOp : Operation → List StatementGroup
  | .sequenceApply ops => subGroupsOps ops
  | .detectionsFilter g => subGroupsGroup g
  | _ => []

end

/-! ### Concrete instances used by examples and witnesses -/

/-- A concrete evaluation environment: the randomness source always draws
`1/2` and the regex oracle accepts everything. -/
def env0 : EvalEnv := ⟨fun _ => 1 / 2, fun _ _ => some true⟩

/-- The spec's `DetectionsFilter` scenario predicate: a nested group requiring
`confidence > 0.5` of the current detection (`"_"`). -/
def confGroup : StatementGroup :=
  .mk [.binary
        (.dynamic [.extractDetectionProperty .confidence .first] DEFAULT_OPERAND_NAME)
        .numerGreater (.static (.float (1 / 2)) []) false] .OR

/-- Five concrete detections; `detA` and `detC` are the two whose confidence
exceeds `0.5`. -/
def detA : Detection := ⟨0, 0, 10, 10, "car", 9 / 10⟩

def detB : Detection := ⟨5, 5, 10, 10, "car", 3 / 10⟩

def detC : Detection := ⟨9, 2, 10, 10, "truck", 7 / 10⟩

def detD : Detection := ⟨3, 8, 10, 10, "dog", 1 / 10⟩

def detE : Detection := ⟨7, 1, 10, 10, "cat", 2 / 10⟩

/-! ## Theorems -/

/-- Shifting the stage index of `incompatAt` past the head of a chain. -/
theorem incompatAt_cons_succ (op₁ op₂ : Operation) (rest : List Operation)
    (j : Nat) : incompatAt (op₁ :: op₂ :: rest) (j + 1) = incompatAt (op₂ :: rest) j := by
  simp [incompatAt]

/-- A one-stage chain has no incompatible adjacency. -/
theorem incompatAt_singleton (op : Operation) (j : Nat) :
    incompatAt [op] j = false := by
  simp [incompatAt]

/-- An empty chain has no incompatible adjacency. -/
theorem incompatAt_nil (j : Nat) : incompatAt ([] : List Operation) j = false := by
  simp [incompatAt]

/-- If some adjacency of the chain is kind-incompatible, the kind walk started
at index `i` fails with `KindMismatchError` naming `i` plus the relative index
of an incompatible adjacency. -/
theorem kindWalk_error_of_incompat :
    ∀ (ops : List Operation) (i j : Nat), incompatAt ops j = true →
      ∃ j', kindWalk i ops = .error (.kindMismatchError (some (i + j'))) ∧
        incompatAt ops j' = true := by
  intro ops
  induction ops with
  | nil => intro i j h; rw [incompatAt_nil] at h; exact absurd h (by simp)
  | cons op₁ rest ih =>
    intro i j h
    match rest with
    | [] => rw [incompatAt_singleton] at h; exact absurd h (by simp)
    | op₂ :: rest' =>
      by_cases hc : compatible op₁.outputKinds op₂.inputKinds
      · have hj : ∃ j₀, j = j₀ + 1 := by
          match j with
          | 0 => simp [incompatAt, hc] at h
          | j₀ + 1 => exact ⟨j₀, rfl⟩
        obtain ⟨j₀, rfl⟩ := hj
        rw [incompatAt_cons_succ] at h
        obtain ⟨j', hw, hi⟩ := ih (i + 1) j₀ h
        refine ⟨j' + 1, ?_, ?_⟩
        · simp only [kindWalk, hc, if_true]
          rw [show i + (j' + 1) = i + 1 + j' from by omega]
          exact hw
        · rw [incompatAt_cons_succ]; exact hi
      · refine ⟨0, ?_, ?_⟩
        · simp [kindWalk, hc]
        · simp [incompatAt, hc]

/-- A failing kind walk makes the whole `validate` fail with the same error. -/
theorem validateChain_error_of_kindWalk (ops : List Operation) (e : QLError)
    (h : kindWalk 0 ops = .error e) : validateChain ops = .error e := by
  simp [validateChain, h, Bind.bind, Except.bind]

/-- C1: chain validation is all-or-nothing.  If any adjacent pair of stages of
a chain is kind-incompatible (`incompatAt`), `validateChain` fails with
`KindMismatchError` naming an offending stage index — the whole chain is
rejected; in particular `[ToBoolean, StringToLowerCase]` fails with
`KindMismatchError` at stage 0 at validate time (no evaluation function is
involved), because `ToBoolean`'s declared output kind `Boolean` does not meet
`StringToLowerCase`'s sole accepted input kind `String`. -/
theorem chain_validation_rejects_kind_incompatible :
    (∀ ops : List Operation, (∃ i, incompatAt ops i = true) →
        ∃ j, validateChain ops = .error (.kindMismatchError (some j)) ∧
          incompatAt ops j = true) ∧
      validateChain [.toBoolean, .stringToLowerCase] =
        .error (.kindMismatchError (some 0)) := by
  constructor
  · intro ops ⟨i, hi⟩
    obtain ⟨j, hw, hj⟩ := kindWalk_error_of_incompat ops 0 i hi
    exact ⟨j, by simpa using validateChain_error_of_kindWalk ops _ hw, hj⟩
  · simp [validateChain, kindWalk, compatible, Operation.outputKinds,
      Operation.inputKinds, Bind.bind, Except.bind]

/-- Witness for C1 at the concrete chain `[ToBoolean, StringToLowerCase]`. -/
theorem chain_validation_rejects_kind_incompatible_witness :
    ∃ j, validateChain [.toBoolean, .stringToLowerCase] =
        .error (.kindMismatchError (some j)) ∧
      incompatAt [.toBoolean, .stringToLowerCase] j = true :=
  chain_validation_rejects_kind_incompatible.1
    [.toBoolean, .stringToLowerCase] ⟨0, by decide⟩

/-- C2: `compatible(producedKinds, acceptedKinds)` holds iff the two kind sets
intersect, with `Wildcard` present in either set satisfying the test
unconditionally; and on singleton sets every non-wildcard kind matches only
itself. -/
theorem compatible_iff_intersect_with_wildcard :
    ∀ p a : List Kind,
      (compatible p a = true ↔
        Kind.wildcard ∈ p ∨ Kind.wildcard ∈ a ∨ ∃ k, k ∈ p ∧ k ∈ a) ∧
      (∀ k₁ k₂ : Kind, k₁ ≠ Kind.wildcard → k₂ ≠ Kind.wildcard →
        (compatible [k₁] [k₂] = true ↔ k₁ = k₂)) := by
  intro p a
  constructor
  · simp [compatible, List.any_eq_true]
    tauto
  · intro k₁ k₂ h₁ h₂
    simp [compatible, h₁, h₂]
    tauto

/-- Witness for C2 at concrete kinds: `Boolean` matches itself and does not
match `String`. -/
theorem compatible_iff_intersect_with_wildcard_witness :
    compatible [Kind.boolean] [Kind.boolean] = true ∧
      compatible [Kind.boolean] [Kind.string] ≠ true :=
  ⟨((compatible_iff_intersect_with_wildcard [] []).2 Kind.boolean Kind.boolean
      (by decide) (by decide)).mpr rfl,
    fun hc =>
      absurd (((compatible_iff_intersect_with_wildcard [] []).2 Kind.boolean
        Kind.string (by decide) (by decide)).mp hc) (by decide)⟩

/-- C3: group evaluation proceeds over children in declared order and
short-circuits.  If the first child of an `AND` group evaluates to `false`,
the group evaluates to `false`; if the first child of an `OR` group evaluates
to `true`, the group evaluates to `true`.  In both cases the conclusion holds
for **every** list of later children (which may even be children whose
evaluation would fail) and the random-sample counter stops at the first
child's, so no later child is evaluated; the last two conjuncts state the same
rule for the group occurring nested as a child of an enclosing group, which is
how it applies recursively at every level. -/
theorem statement_group_short_circuit :
    ∀ (env : EvalEnv) (ctx : Ctx) (e : GroupElement) (rest : List GroupElement)
      (n n' : Nat),
      (evalElem env ctx e n = .ok (false, n') →
        evalGroup env ctx (.mk (e :: rest) .AND) n = .ok (false, n')) ∧
      (evalElem env ctx e n = .ok (true, n') →
        evalGroup env ctx (.mk (e :: rest) .OR) n = .ok (true, n')) ∧
      (evalElem env ctx e n = .ok (false, n') →
        evalElem env ctx (.group (.mk (e :: rest) .AND)) n = .ok (false, n')) ∧
      (evalElem env ctx e n = .ok (true, n') →
        evalElem env ctx (.group (.mk (e :: rest) .OR)) n = .ok (true, n')) := by
  intro env ctx e rest n n'
  refine ⟨?_, ?_, ?_, ?_⟩ <;> intro h <;>
    simp [evalGroup, evalElem, evalElems, h, Bind.bind, Except.bind,
      shortCircuits]

/-- Witness for C3: concrete two-child groups whose second child would fail
(its dynamic operand is absent from the context), yet the groups evaluate. -/
theorem statement_group_short_circuit_witness :
    evalGroup env0 []
        (.mk [.unary (.static (.bool false) []) .isTrue false,
              .unary (.dynamic [] "missing") .existsOp false] .AND) 0 =
      .ok (false, 0) ∧
    evalGroup env0 []
        (.mk [.unary (.static (.bool true) []) .isTrue false,
              .unary (.dynamic [] "missing") .existsOp false] .OR) 0 =
      .ok (true, 0) :=
  ⟨(statement_group_short_circuit env0 [] _ _ 0 0).1
      (by simp [evalElem, resolve, evalOps, applyUnaryComparator, Bind.bind,
        Except.bind]),
    (statement_group_short_circuit env0 [] _ _ 0 0).2.1
      (by simp [evalElem, resolve, evalOps, applyUnaryComparator, Bind.bind,
        Except.bind])⟩

/-- C6: the negation law.  Evaluating a binary or unary statement with
`negate=true` is exactly the `negate=false` evaluation with its Boolean
result logically negated (stated through `Except.map`, so whenever the
`negate=false` evaluation succeeds with `b` the `negate=true` evaluation
succeeds with `!b` at the same sample counter, and both fail alike). -/
theorem statement_negation_law :
    ∀ (env : EvalEnv) (ctx : Ctx) (l r o : Operand) (c : BinaryComparator)
      (u : UnaryComparator) (n : Nat),
      (evalElem env ctx (.binary l c r true) n =
        (evalElem env ctx (.binary l c r false) n).map (fun p => (!p.1, p.2))) ∧
      (evalElem env ctx (.unary o u true) n =
        (evalElem env ctx (.unary o u false) n).map (fun p => (!p.1, p.2))) := by
  intro env ctx l r o c u n
  constructor
  · cases hl : resolve env ctx l n with
    | error e => simp [evalElem, Bind.bind, Except.bind, hl, Except.map]
    | ok p =>
      obtain ⟨lv, n₁⟩ := p
      cases hr : resolve env ctx r n₁ with
      | error e => simp [evalElem, Bind.bind, Except.bind, hl, hr, Except.map]
      | ok q =>
        obtain ⟨rv, n₂⟩ := q
        cases hc : applyBinaryComparator c lv rv with
        | error e =>
          simp [evalElem, Bind.bind, Except.bind, hl, hr, hc, Except.map]
        | ok b₀ =>
          simp [evalElem, Bind.bind, Except.bind, hl, hr, hc, Except.map]
  · cases ho : resolve env ctx o n with
    | error e => simp [evalElem, Bind.bind, Except.bind, ho, Except.map]
    | ok p =>
      obtain ⟨v, n₁⟩ := p
      cases hc : applyUnaryComparator u v with
      | error e => simp [evalElem, Bind.bind, Except.bind, ho, hc, Except.map]
      | ok b₀ => simp [evalElem, Bind.bind, Except.bind, ho, hc, Except.map]

/-- A one-element group evaluates exactly as its sole element, for either
group operator. -/
theorem singleton_group_eval (env : EvalEnv) (ctx : Ctx) (e : GroupElement)
    (op : StatementsGroupsOperator) (n : Nat) :
    evalGroup env ctx (.mk [e] op) n = evalElem env ctx e n := by
  cases he : evalElem env ctx e n with
  | error err => simp [evalGroup, evalElems, he, Bind.bind, Except.bind]
  | ok p =>
    obtain ⟨b, n'⟩ := p
    cases op <;> cases b <;>
      simp [evalGroup, evalElems, he, Bind.bind, Except.bind, shortCircuits,
        groupIdentity]

/-- C7: the identity group law.  A `StatementGroup` whose statements list is
exactly one binary or unary statement evaluates to the same result as that
statement alone, whether the group's declared operator is `AND` or `OR`. -/
theorem singleton_group_identity :
    ∀ (env : EvalEnv) (ctx : Ctx) (op : StatementsGroupsOperator)
      (l r o : Operand) (c : BinaryComparator) (u : UnaryComparator)
      (neg : Bool) (n : Nat),
      evalGroup env ctx (.mk [.binary l c r neg] op) n =
          evalElem env ctx (.binary l c r neg) n ∧
        evalGroup env ctx (.mk [.unary o u neg] op) n =
          evalElem env ctx (.unary o u neg) n :=
  fun env ctx op l r o c u neg n =>
    ⟨singleton_group_eval env ctx (.binary l c r neg) op n,
      singleton_group_eval env ctx (.unary o u neg) op n⟩

/-- When the nested group behaves as the pure predicate `p` on each detection
(same result at any sample counter, counter preserved), `evalFilter` is
`List.filter p`. -/
theorem evalFilter_of_pure (env : EvalEnv) (ctx : Ctx) (g : StatementGroup)
    (p : Detection → Bool)
    (h : ∀ d m, evalGroup env ((DEFAULT_OPERAND_NAME, .detection d) :: ctx) g m =
      .ok (p d, m)) :
    ∀ (ds : List Detection) (n : Nat),
      evalFilter env ctx g ds n = .ok (ds.filter p, n) := by
  intro ds
  induction ds with
  | nil => intro n; simp [evalFilter]
  | cons d ds ih =>
    intro n
    by_cases hpd : p d <;>
      simp [evalFilter, h, ih, Bind.bind, Except.bind, List.filter_cons, hpd]

/-- `evalOp` on `DetectionsFilter`, under the same purity assumption. -/
theorem evalOp_filter_of_pure (env : EvalEnv) (ctx : Ctx) (g : StatementGroup)
    (p : Detection → Bool) (ds : List Detection) (n : Nat)
    (h : ∀ d m, evalGroup env ((DEFAULT_OPERAND_NAME, .detection d) :: ctx) g m =
      .ok (p d, m)) :
    evalOp env ctx (.detectionsFilter g) (.detections ds) n =
      .ok (.detections (ds.filter p), n) := by
  simp [evalOp, evalFilter_of_pure env ctx g p h, Bind.bind, Except.bind]

/-- The spec's scenario predicate `confGroup` evaluates, on a context binding
`"_"` to a detection, to `confidence > 0.5` — at any sample counter, which it
preserves. -/
theorem confGroup_eval (env : EvalEnv) (d : Detection) (m : Nat) :
    evalGroup env [(DEFAULT_OPERAND_NAME, .detection d)] confGroup m =
      .ok (decide ((1 : ℚ) / 2 < d.confidence), m) := by
  by_cases hc : (1 : ℚ) / 2 < d.confidence <;>
    simp [confGroup, evalGroup, evalElems, evalElem, resolve, evalOps, evalOp,
      applySimpleOp, ctxLookup, applyBinaryComparator, asNumber,
      detectionProperty, DEFAULT_OPERAND_NAME, Bind.bind, Except.bind,
      shortCircuits, groupIdentity, hc]

/-- The five scenario detections filtered by `confidence > 0.5` keep exactly
`detA` and `detC`, in order. -/
theorem scenario_filter_result :
    [detA, detB, detC, detD, detE].filter
        (fun d => decide ((1 : ℚ) / 2 < d.confidence)) = [detA, detC] := by
  norm_num [List.filter, detA, detB, detC, detD, detE]

/-- C4: `DetectionsFilter` keeps exactly the detections for which the nested
group evaluates `true`, in the original relative order (`List.filter`), with
the nested group's dynamic operands resolved against a context binding `"_"`
to the current detection; on the spec's 5-detection scenario where 2 qualify
(`confidence > 0.5`), exactly those 2 are returned in order. -/
theorem detections_filter_semantics :
    (∀ (env : EvalEnv) (ctx : Ctx) (g : StatementGroup) (p : Detection → Bool)
        (ds : List Detection) (n : Nat),
        (∀ d m, evalGroup env ((DEFAULT_OPERAND_NAME, .detection d) :: ctx) g m =
            .ok (p d, m)) →
        evalOp env ctx (.detectionsFilter g) (.detections ds) n =
          .ok (.detections (ds.filter p), n)) ∧
      ∀ env : EvalEnv,
        evalOp env [] (.detectionsFilter confGroup)
            (.detections [detA, detB, detC, detD, detE]) 0 =
          .ok (.detections [detA, detC], 0) := by
  constructor
  · intro env ctx g p ds n h
    exact evalOp_filter_of_pure env ctx g p ds n h
  · intro env
    have h := evalOp_filter_of_pure env [] confGroup
      (fun d => decide ((1 : ℚ) / 2 < d.confidence))
      [detA, detB, detC, detD, detE] 0 (confGroup_eval env)
    rwa [scenario_filter_result] at h

/-- Witness for C4 at the concrete scenario inputs. -/
theorem detections_filter_semantics_witness :
    evalOp env0 [] (.detectionsFilter confGroup)
        (.detections [detA, detB, detC, detD, detE]) 0 =
      .ok (.detections
        ([detA, detB, detC, detD, detE].filter
          (fun d => decide ((1 : ℚ) / 2 < d.confidence))), 0) :=
  detections_filter_semantics.1 env0 [] confGroup
    (fun d => decide ((1 : ℚ) / 2 < d.confidence))
    [detA, detB, detC, detD, detE] 0 (confGroup_eval env0)

mutual

theorem nonempty_in_group : ∀ g : StatementGroup, decodeValidGroup g = true →
    ∀ g' ∈ subGroupsGroup g, g'.statements ≠ []
  | .mk stmts op => by
    intro h g' hg'
    simp only [decodeValidGroup, Bool.and_eq_true] at h
    simp only [subGroupsGroup, List.mem_cons] at hg'
    cases hg' with
    | inl he =>
      subst he
      simp only [StatementGroup.statements]
      intro hnil
      rw [hnil] at h
      simp at h
    | inr hmem => exact nonempty_in_elems stmts h.2 g' hmem

theorem nonempty_in_elems : ∀ es : List GroupElement,
    decodeValidElems es = true → ∀ g' ∈ subGroupsElems es, g'.statements ≠ []
  | [] => by intro _ g' hg'; simp [subGroupsElems] at hg'
  | e :: rest => by
    intro h g' hg'
    simp only [decodeValidElems, Bool.and_eq_true] at h
    simp only [subGroupsElems, List.mem_append] at hg'
    cases hg' with
    | inl hm => exact nonempty_in_elem e h.1 g' hm
    | inr hm => exact nonempty_in_elems rest h.2 g' hm

theorem nonempty_in_elem : ∀ e : GroupElement, decodeValidElem e = true →
    ∀ g' ∈ subGroupsElem e, g'.statements ≠ []
  | .binary l c r neg => by
    intro h g' hg'
    simp only [decodeValidElem, Bool.and_eq_true] at h
    simp only [subGroupsElem, List.mem_append] at hg'
    cases hg' with
    | inl hm => exact nonempty_in_operand l h.1 g' hm
    | inr hm => exact nonempty_in_operand r h.2 g' hm
  | .unary o c neg => by
    intro h g' hg'
    simp only [decodeValidElem] at h
    simp only [subGroupsElem] at hg'
    exact nonempty_in_operand o h g' hg'
  | .group g => by
    intro h g' hg'
    simp only [decodeValidElem] at h
    simp only [subGroupsElem] at hg'
    exact nonempty_in_group g h g' hg'

theorem nonempty_in_operand : ∀ o : Operand, decodeValidOperand o = true →
    ∀ g' ∈ subGroupsOperand o, g'.statements ≠ []
  | .static v ops => by
    intro h g' hg'
    simp only [decodeValidOperand] at h
    simp only [subGroupsOperand] at hg'
    exact nonempty_in_ops ops h g' hg'
  | .dynamic ops name => by
    intro h g' hg'
    simp only [decodeValidOperand] at h
    simp only [subGroupsOperand] at hg'
    exact nonempty_in_ops ops h g' hg'

theorem nonempty_in_ops : ∀ ops : List Operation, decodeValidOps ops = true →
    ∀ g' ∈ subGroupsOps ops, g'.statements ≠ []
  | [] => by intro _ g' hg'; simp [subGroupsOps] at hg'
  | op :: rest => by
    intro h g' hg'
    simp only [decodeValidOps, Bool.and_eq_true] at h
    simp only [subGroupsOps, List.mem_append] at hg'
    cases hg' with
    | inl hm => exact nonempty_in_op op h.1 g' hm
    | inr hm => exact nonempty_in_ops rest h.2 g' hm

theorem nonempty_in_op : ∀ op : Operation, decodeValidOp op = true →
    ∀ g' ∈ subGroupsOp op, g'.statements ≠ []
  | .sequenceApply ops => by
    intro h g' hg'
    simp only [decodeValidOp] at h
    simp only [subGroupsOp] at hg'
    exact nonempty_in_ops ops h g' hg'
  | .detectionsFilter g => by
    intro h g' hg'
    simp only [decodeValidOp] at h
    simp only [subGroupsOp] at hg'
    exact nonempty_in_group g h g' hg'
  | .stringToLowerCase => by intro _ g' hg'; simp [subGroupsOp] at hg'
  | .stringToUpperCase => by intro _ g' hg'; simp [subGroupsOp] at hg'
  | .lookupTable t => by intro _ g' hg'; simp [subGroupsOp] at hg'
  | .toNumber m => by intro _ g' hg'; simp [subGroupsOp] at hg'
  | .numberRound d => by intro _ g' hg'; simp [subGroupsOp] at hg'
  | .sequenceMap t => by intro _ g' hg'; simp [subGroupsOp] at hg'
  | .numericSequenceAggregate f => by intro _ g' hg'; simp [subGroupsOp] at hg'
  | .toString => by intro _ g' hg'; simp [subGroupsOp] at hg'
  | .toBoolean => by intro _ g' hg'; simp [subGroupsOp] at hg'
  | .stringSubSequence a b => by intro _ g' hg'; simp [subGroupsOp] at hg'
  | .detectionsPropertyExtract p => by intro _ g' hg'; simp [subGroupsOp] at hg'
  | .sequenceAggregate m => by intro _ g' hg'; simp [subGroupsOp] at hg'
  | .extractDetectionProperty p u => by intro _ g' hg'; simp [subGroupsOp] at hg'
  | .detectionsOffset a b => by intro _ g' hg'; simp [subGroupsOp] at hg'
  | .detectionsShift a b => by intro _ g' hg'; simp [subGroupsOp] at hg'
  | .randomNumber a b => by intro _ g' hg'; simp [subGroupsOp] at hg'
  | .stringMatches re => by intro _ g' hg'; simp [subGroupsOp] at hg'
  | .sequenceLength => by intro _ g' hg'; simp [subGroupsOp] at hg'

end

/-- C8: every decoded `StatementGroup` has a non-empty statements list — a
document whose group carries an empty list fails the decode-time check
(`decodeValidGroup`, the source's `min_items=1` applied recursively), and the
invariant holds for every nested group (`subGroupsGroup`) as well. -/
theorem decoded_statement_groups_nonempty :
    ∀ g : StatementGroup, decodeValidGroup g = true →
      ∀ g' ∈ subGroupsGroup g, g'.statements ≠ [] :=
  nonempty_in_group

/-- Witness for C8 at a concrete one-statement group. -/
theorem decoded_statement_groups_nonempty_witness :
    (StatementGroup.mk [.unary (.static (.bool true) []) .isTrue false]
        .OR).statements ≠ [] :=
  decoded_statement_groups_nonempty
    (StatementGroup.mk [.unary (.static (.bool true) []) .isTrue false] .OR)
    (by simp [decodeValidGroup, decodeValidElems, decodeValidElem,
      decodeValidOperand, decodeValidOps])
    (StatementGroup.mk [.unary (.static (.bool true) []) .isTrue false] .OR)
    (by simp [subGroupsGroup])

/-- C5: operand resolution.  A Static operand's resolution starts from the
embedded literal and applies the operand's own operations chain; a Dynamic
operand's resolution looks `operand_name` up in the runtime context, fails
with `OperandResolutionError` when the name is absent (the error aborts just
this evaluation, as `Except` propagation), and otherwise applies the operand's
own operations chain to the value found. -/
theorem operand_resolution_semantics :
    ∀ (env : EvalEnv) (ctx : Ctx) (ops : List Operation) (name : String)
      (v : Value) (n : Nat),
      (resolve env ctx (.static v ops) n = evalOps env ctx ops v n) ∧
      (ctxLookup ctx name = Option.none →
        resolve env ctx (.dynamic ops name) n =
          .error (.operandResolutionError name)) ∧
      (ctxLookup ctx name = some v →
        resolve env ctx (.dynamic ops name) n = evalOps env ctx ops v n) := by
  intro env ctx ops name v n
  refine ⟨by simp [resolve], ?_, ?_⟩ <;> intro h <;> simp [resolve, h]

/-- Witness for C5: concrete lookups — an absent name fails, a present name
resolves to its bound value. -/
theorem operand_resolution_semantics_witness :
    resolve env0 [("x", .int 1)] (.dynamic [] "y") 0 =
        .error (.operandResolutionError "y") ∧
      resolve env0 [("x", .int 1)] (.dynamic [] "x") 0 = .ok (.int 1, 0) :=
  ⟨(operand_resolution_semantics env0 [("x", .int 1)] [] "y" (.int 1) 0).2.1
      (by simp [ctxLookup]),
    by
      have h := (operand_resolution_semantics env0 [("x", .int 1)] [] "x"
        (.int 1) 0).2.2 (by simp [ctxLookup])
      simpa [evalOps] using h⟩

/-- C9: `RandomNumber` ignores its input value; with the host's draw `r` it
produces `min_value + r * (max_value - min_value)`, which lies in
`[min_value, max_value]` whenever `min_value ≤ max_value` and `r ∈ [0, 1]`
(the draw is the host's uniform sample; distributional uniformity itself is
not expressible here); configured with `min_value > max_value` it fails with
`InvalidRangeError` both at validate time (the configuration is static) and at
evaluation; decoded without explicit fields it defaults to
`min_value = 0.0`, `max_value = 1.0`. -/
theorem random_number_semantics :
    ∀ (env : EvalEnv) (ctx : Ctx) (lo hi : ℚ) (v w : Value) (n : Nat),
      (evalOp env ctx (.randomNumber lo hi) v n =
        evalOp env ctx (.randomNumber lo hi) w n) ∧
      (lo ≤ hi →
        evalOp env ctx (.randomNumber lo hi) v n =
          .ok (.float (lo + env.draw n * (hi - lo)), n + 1)) ∧
      (lo ≤ hi → 0 ≤ env.draw n → env.draw n ≤ 1 →
        lo ≤ lo + env.draw n * (hi - lo) ∧ lo + env.draw n * (hi - lo) ≤ hi) ∧
      (hi < lo →
        evalOp env ctx (.randomNumber lo hi) v n = .error .invalidRangeError ∧
          validateChain [.randomNumber lo hi] = .error .invalidRangeError) ∧
      mkRandomNumber Option.none Option.none = .randomNumber 0 1 := by
  intro env ctx lo hi v w n
  refine ⟨by simp [evalOp, applySimpleOp], ?_, ?_, ?_, rfl⟩
  · intro h
    simp [evalOp, applySimpleOp, not_lt.mpr h]
  · intro h1 h2 h3
    constructor
    · nlinarith
    · nlinarith
  · intro h
    constructor
    · simp [evalOp, applySimpleOp, h]
    · simp [validateChain, kindWalk, validateStages, validateOperation, h,
        Bind.bind, Except.bind]

/-- Witness for C9: the default configuration with the concrete draw `1/2`
evaluates to `1/2` inside `[0, 1]`, and the inverted configuration
`min_value = 1 > max_value = 0` fails with `InvalidRangeError`. -/
theorem random_number_semantics_witness :
    (evalOp env0 [] (.randomNumber 0 1) (.int 7) 0 =
      .ok (.float (0 + env0.draw 0 * (1 - 0)), 1)) ∧
    ((0 : ℚ) ≤ 0 + env0.draw 0 * (1 - 0) ∧ 0 + env0.draw 0 * (1 - 0) ≤ 1) ∧
    evalOp env0 [] (.randomNumber 1 0) (.int 7) 0 =
      .error .invalidRangeError :=
  ⟨(random_number_semantics env0 [] 0 1 (.int 7) (.int 7) 0).2.1 (by norm_num),
    (random_number_semantics env0 [] 0 1 (.int 7) (.int 7) 0).2.2.1
      (by norm_num) (by norm_num [env0]) (by norm_num [env0]),
    ((random_number_semantics env0 [] 1 0 (.int 7) (.int 7) 0).2.2.2.1
      (by norm_num)).1⟩

/-- C10: a `StringSubSequence` decoded without explicit `start`/`end` defaults
to `start = 0`, `end = -1`; under Python slice semantics the
default-configured operation maps a string `s` to `s[0:-1]` — `s` with its
last character removed — so on every non-empty `s` the result differs from
`s`: identity is not the default behaviour. -/
theorem string_subsequence_default_semantics :
    (mkStringSubSequence Option.none Option.none = .stringSubSequence 0 (-1)) ∧
      ∀ (env : EvalEnv) (ctx : Ctx) (s : String) (n : Nat),
        evalOp env ctx (.stringSubSequence 0 (-1)) (.str s) n =
            .ok (.str (String.mk s.toList.dropLast), n) ∧
          (s ≠ "" → String.mk s.toList.dropLast ≠ s) := by
  refine ⟨rfl, ?_⟩
  intro env ctx s n
  constructor
  · simp [evalOp, applySimpleOp, pySlice, pySliceIndex]
    have hn : (-1 + (s.length : Int)).toNat = s.data.length - 1 := by
      simp only [String.length]
      omega
    rw [hn, ← List.dropLast_eq_take]
  · intro hne heq
    have hd : s.toList.dropLast = s.data := congrArg String.data heq
    have hlen := congrArg List.length hd
    simp only [String.toList, List.length_dropLast] at hlen
    have hnil : s.data ≠ [] := by
      intro h0
      apply hne
      cases s with
      | mk data => simp at h0; rw [h0]
    have hpos : 0 < s.data.length := List.length_pos.mpr hnil
    omega

/-- Witness for C10 at the concrete string `"abc"`. -/
theorem string_subsequence_default_semantics_witness :
    evalOp env0 [] (.stringSubSequence 0 (-1)) (.str "abc") 0 =
        .ok (.str (String.mk "abc".toList.dropLast), 0) ∧
      String.mk "abc".toList.dropLast ≠ "abc" :=
  ⟨(string_subsequence_default_semantics.2 env0 [] "abc" 0).1,
    (string_subsequence_default_semantics.2 env0 [] "abc" 0).2 (by decide)⟩

end QL
